import Mathlib

/-!
Shallow embedding of zinrai/s3-file-remover (main.go).

The program lists an S3 bucket page by page, filters objects whose
last-modified timestamp is strictly before a target date, accumulates the
matching keys into batches of at most `maxKeysPerDelete`, and sends each
full batch (and a final non-empty remainder) to a channel consumed by a
pool of deletion workers.  A worker issues one bulk-delete call per batch
and, on success, adds the batch length to the shared `totalDeleted`
counter; on failure it only logs.  The coordinator (`main`) validates the
configuration, parses the date, builds the client, runs the scan, closes
the channel, joins the workers and prints a summary; a listing error makes
it exit fatally via `log.Fatalf`.

Timestamps are modelled as `Int` (Go `time.Time.Before` is a strict
comparison), the Go `int` batch limit as `Int` (it may be non-positive),
page fetches as a list of `PageResult` (a successful page's contents, or
an opaque fetch error), the external `time.Parse` collaborator as an
oracle `String → String → Option Int` consulted with the format strings
that appear in `parseDate`, and the outcome of each bulk-delete call as a
boolean oracle on the batch.
-/

namespace S3FileRemover

/-- An object listed by the store: a key and its last-modified timestamp
(`types.Object` restricted to the two fields the program reads). -/
structure S3Object where
  key : String
  lastModified : Int
deriving DecidableEq, Repr

/-- Outcome of one `paginator.NextPage` call: the page's `Contents`, or a
fetch error. -/
inductive PageResult where
  | ok (contents : List S3Object)
  | err
deriving DecidableEq, Repr

/-- The scanner's mutable state inside `listAndDeleteObjects`: the
in-progress `objectsBuffer`, the batches already sent to the channel (in
send order), and the `totalObjects` counter. -/
structure ScanState where
  buffer : List String
  acc : List (List String)
  total : Nat
deriving DecidableEq, Repr

/-- What `listAndDeleteObjects` produces: the batches sent to the channel
(in order), the returned `totalObjects` count, and whether it returned a
listing error. -/
structure ScanResult where
  batches : List (List String)
  total : Nat
  failed : Bool
deriving DecidableEq, Repr

/-- The filter on line 139 of main.go: `obj.LastModified.Before(targetDate)`,
a strict comparison. -/
def keep (cutoff : Int) (o : S3Object) : Bool :=
  o.lastModified < cutoff

/-- One iteration of the inner loop of `listAndDeleteObjects` (lines
138-148): if the object qualifies, append its key to the buffer and bump
`totalObjects`; if the buffer has reached `maxKeysPerDelete`, send it and
start a fresh one. -/
def stepObj (cutoff maxKeys : Int) (st : ScanState) (o : S3Object) : ScanState :=
  if keep cutoff o then
    if maxKeys ≤ ((st.buffer ++ [o.key]).length : Int) then
      ⟨[], st.acc ++ [st.buffer ++ [o.key]], st.total + 1⟩
    else
      ⟨st.buffer ++ [o.key], st.acc, st.total + 1⟩
  else
    st

/-- The inner loop of `listAndDeleteObjects` over one page's `Contents`. -/
def scanPage (cutoff maxKeys : Int) (st : ScanState) : List S3Object → ScanState
  | [] => st
  | o :: rest => scanPage cutoff maxKeys (stepObj cutoff maxKeys st o) rest

/-- The final flush after the page loop (main.go lines 151-153): a
non-empty leftover buffer is sent as a last, possibly undersized batch. -/
def flushFinal (st : ScanState) : ScanResult :=
  if st.buffer = [] then ⟨st.acc, st.total, false⟩
  else ⟨st.acc ++ [st.buffer], st.total, false⟩

/-- The page loop of `listAndDeleteObjects` (lines 132-153): on a page
fetch error it returns immediately with the count so far, dropping the
buffered keys; after the last page it flushes a non-empty buffer as a
final batch. -/
def scanPages (cutoff maxKeys : Int) (st : ScanState) : List PageResult → ScanResult
  | [] => flushFinal st
  | PageResult.err :: _ => ⟨st.acc, st.total, true⟩
  | PageResult.ok c :: rest => scanPages cutoff maxKeys (scanPage cutoff maxKeys st c) rest

/-- The scanner state after the error-free pages `pages`, starting from
`st`: the same fold of `scanPage` that `scanPages` performs. -/
def scanOkPages (cutoff maxKeys : Int) (st : ScanState) : List (List S3Object) → ScanState
  | [] => st
  | c :: rest => scanOkPages cutoff maxKeys (scanPage cutoff maxKeys st c) rest

/-- The objects the scanner actually iterates over: the contents of the
successfully fetched pages up to (and excluding) the first fetch error. -/
def consumedObjects : List PageResult → List S3Object
  | [] => []
  | PageResult.err :: _ => []
  | PageResult.ok c :: rest => c ++ consumedObjects rest

/-- `listAndDeleteObjects` (main.go lines 124-156), with the channel sends
recorded as the ordered list of batches. -/
def listAndDeleteObjects (cutoff maxKeys : Int) (pages : List PageResult) : ScanResult :=
  scanPages cutoff maxKeys ⟨[], [], 0⟩ pages

/-- The keys of the objects in `objs` that pass the date filter, in
listing order. -/
def candKeys (cutoff : Int) (objs : List S3Object) : List String :=
  (objs.filter (keep cutoff)).map S3Object.key

/-- The candidate keys of an error-free listing, in page order. -/
def candidateKeys (cutoff : Int) (pages : List (List S3Object)) : List String :=
  candKeys cutoff pages.flatten

/-- The worker-pool accounting (main.go lines 106-121): each batch's
bulk-delete call either succeeds (per the `succ` oracle), adding the full
batch length to `totalDeleted`, or fails, adding nothing. -/
def totalDeleted (succ : List String → Bool) (batches : List (List String)) : Nat :=
  ((batches.filter succ).map List.length).sum

/-- The total size of the batches whose bulk-delete call failed. -/
def failedSizes (succ : List String → Bool) (batches : List (List String)) : Nat :=
  ((batches.filter (fun b => ! succ b)).map List.length).sum

/-- What the finished process reported: `log.Fatalf` on a listing error
(error text only, no counts), or the final summary line with
`totalDeleted` and `totalObjects`. -/
inductive RunOutcome where
  | fatalListing
  | summary (deleted total : Nat)
deriving DecidableEq, Repr

/-- The scan-then-report part of `main` (lines 64-74): a listing error hits
`log.Fatalf` before any summary; otherwise the summary carries the worker
pool's deleted count and the scanner's candidate count. -/
def runPipeline (cutoff maxKeys : Int) (pages : List PageResult)
    (succ : List String → Bool) : RunOutcome :=
  let r := listAndDeleteObjects cutoff maxKeys pages
  if r.failed then RunOutcome.fatalListing
  else RunOutcome.summary (totalDeleted succ r.batches) r.total

/-- The deleted/candidate counts the run printed in its summary line, if it
printed one (the fatal-listing path prints none). -/
def reportedCounts : RunOutcome → Option (Nat × Nat)
  | RunOutcome.fatalListing => none
  | RunOutcome.summary d t => some (d, t)

/-- The layout string `time.RFC3339`, tried first by `parseDate`. -/
def rfc3339Layout : String := "2006-01-02T15:04:05Z07:00"

/-- The `formats` slice of `parseDate` (main.go lines 166-175), in order:
date only, date `T` time, date space time, then `time.RFC822`,
`time.RFC850`, `time.RFC1123`, `time.RFC1123Z`, `time.RFC3339Nano`. -/
def fallbackLayouts : List String :=
  ["2006-01-02",
   "2006-01-02T15:04:05",
   "2006-01-02 15:04:05",
   "02 Jan 06 15:04 MST",
   "Monday, 02-Jan-06 15:04:05 MST",
   "Mon, 02 Jan 2006 15:04:05 MST",
   "Mon, 02 Jan 2006 15:04:05 -0700",
   "2006-01-02T15:04:05.999999999Z07:00"]

/-- The format loop of `parseDate` (lines 177-182): return the first
layout the external `time.Parse` collaborator (`tp`) accepts. -/
def tryLayouts (tp : String → String → Option Int) (s : String) :
    List String → Option Int
  | [] => none
  | f :: rest =>
    match tp f s with
    | some t => some t
    | none => tryLayouts tp s rest

/-- `parseDate` (main.go lines 158-185): RFC3339 first, then the fallback
layouts in order; `none` models the "unable to parse date" error. -/
def parseDate (tp : String → String → Option Int) (s : String) : Option Int :=
  match tp rfc3339Layout s with
  | some t => some t
  | none => tryLayouts tp s fallbackLayouts

/-- The command-line configuration the coordinator inspects before the
scan: flag values for bucket, date, endpoint and credentials. -/
structure Config where
  bucket : String
  dateStr : String
  endpoint : String
  accessKey : String
  secretKey : String
deriving DecidableEq, Repr

/-- One of the three setup actions `main` performs before the pipeline. -/
inductive SetupStage where
  | validateConfig
  | parseTargetDate
  | createClient
deriving DecidableEq, Repr

/-- How setup ended: one of the three fatal setup errors, or ready to scan
with the parsed cutoff. -/
inductive SetupResult where
  | configError
  | dateParseError
  | clientError
  | ready (cutoff : Int)
deriving DecidableEq, Repr

/-- Whether client construction succeeds (main.go lines 39-52): with an
endpoint set, both credentials must be present and then the external
`LoadDefaultConfig` collaborator (`loadOk`) decides; without an endpoint
only the collaborator does. -/
def clientCreationOk (loadOk : Bool) (cfg : Config) : Bool :=
  if cfg.endpoint = "" then loadOk
  else decide (cfg.accessKey ≠ "") && decide (cfg.secretKey ≠ "") && loadOk

/-- The setup phase of `main` (lines 30-52) as the ordered list of stages
it performed plus its result: it validates the bucket/date flags, then
parses the target date, then constructs the client, stopping at the first
failure. -/
def setupTrace (tp : String → String → Option Int) (loadOk : Bool) (cfg : Config) :
    List SetupStage × SetupResult :=
  if cfg.bucket = "" ∨ cfg.dateStr = "" then
    ([SetupStage.validateConfig], SetupResult.configError)
  else
    match parseDate tp cfg.dateStr with
    | none =>
      ([SetupStage.validateConfig, SetupStage.parseTargetDate],
       SetupResult.dateParseError)
    | some t =>
      if clientCreationOk loadOk cfg then
        ([SetupStage.validateConfig, SetupStage.parseTargetDate, SetupStage.createClient],
         SetupResult.ready t)
      else
        ([SetupStage.validateConfig, SetupStage.parseTargetDate, SetupStage.createClient],
         SetupResult.clientError)

/-- Modelled from the spec: the Coordinator stage order claimed by §4.3
(validate the configuration, then construct the store client, then parse
the target date).  Written only to compare the claimed order with
`setupTrace`, which follows main.go. -/
def setupTraceClaimed (tp : String → String → Option Int) (loadOk : Bool) (cfg : Config) :
    List SetupStage × SetupResult :=
  if cfg.bucket = "" ∨ cfg.dateStr = "" then
    ([SetupStage.validateConfig], SetupResult.configError)
  else if clientCreationOk loadOk cfg then
    match parseDate tp cfg.dateStr with
    | none =>
      ([SetupStage.validateConfig, SetupStage.createClient, SetupStage.parseTargetDate],
       SetupResult.dateParseError)
    | some t =>
      ([SetupStage.validateConfig, SetupStage.createClient, SetupStage.parseTargetDate],
       SetupResult.ready t)
  else
    ([SetupStage.validateConfig, SetupStage.createClient], SetupResult.clientError)

/-- How a whole run of `main` ended: a fatal setup error, a fatal listing
error, or the final summary line. -/
inductive ProgOutcome where
  | configError
  | dateParseError
  | clientError
  | fatalListing
  | summary (deleted total : Nat)
deriving DecidableEq, Repr

/-- A whole run of `main`: setup stops the run at its first error before
any listing; otherwise the pipeline runs with the parsed cutoff. -/
def runProgram (tp : String → String → Option Int) (loadOk : Bool) (cfg : Config)
    (maxKeys : Int) (pages : List PageResult) (succ : List String → Bool) : ProgOutcome :=
  match (setupTrace tp loadOk cfg).2 with
  | SetupResult.configError => ProgOutcome.configError
  | SetupResult.dateParseError => ProgOutcome.dateParseError
  | SetupResult.clientError => ProgOutcome.clientError
  | SetupResult.ready cutoff =>
    match runPipeline cutoff maxKeys pages succ with
    | RunOutcome.fatalListing => ProgOutcome.fatalListing
    | RunOutcome.summary d t => ProgOutcome.summary d t

/-- A snapshot of the producer/consumer pipeline of `main`: the batches the
scanner has yet to send, the contents of the `objectsToDelete` channel,
whether the channel has been closed, and how many workers are still
running. -/
structure PipeState where
  toEmit : List (List String)
  chan : List (List String)
  closed : Bool
  workers : Nat
deriving DecidableEq, Repr

/-- The interleaved steps of the pipeline, with `cap` the channel buffer
capacity (`make(chan ..., *workers)`): the scanner sends its next batch
when the buffer has room, closes the channel once all batches are sent, a
worker receives a batch and runs its delete call, and a worker returns
once the channel is closed and drained. -/
inductive PipeStep (cap : Nat) : PipeState → PipeState → Prop
  | send (s : PipeState) (b : List String) (rest : List (List String)) :
      s.toEmit = b :: rest → s.chan.length < cap →
      PipeStep cap s ⟨rest, s.chan ++ [b], s.closed, s.workers⟩
  | close (s : PipeState) :
      s.toEmit = [] → s.closed = false →
      PipeStep cap s ⟨s.toEmit, s.chan, true, s.workers⟩
  | recv (s : PipeState) (b : List String) (rest : List (List String)) :
      s.chan = b :: rest → 0 < s.workers →
      PipeStep cap s ⟨s.toEmit, rest, s.closed, s.workers⟩
  | exitWorker (s : PipeState) :
      s.closed = true → s.chan = [] → 0 < s.workers →
      PipeStep cap s ⟨s.toEmit, s.chan, s.closed, s.workers - 1⟩

/-- The pipeline's initial state: the scanner's batches pending, an empty
channel, the channel open, and `workers` workers running. -/
def initPipe (cutoff maxKeys : Int) (pages : List PageResult) (workers : Nat) : PipeState :=
  ⟨(listAndDeleteObjects cutoff maxKeys pages).batches, [], false, workers⟩

/-- The pipeline has fully wound down: every batch sent, channel drained
and closed, every worker returned (so `wg.Wait` and the summary follow). -/
def PipeDone (s : PipeState) : Prop :=
  s.toEmit = [] ∧ s.chan = [] ∧ s.closed = true ∧ s.workers = 0

/-- A variant that strictly decreases with every pipeline step. -/
def pipeMeasure (s : PipeState) : Nat :=
  2 * s.toEmit.length + s.chan.length + s.workers + (if s.closed then 0 else 1)

/-- States the pipeline can reach from `s` through any interleaving. -/
def PipeReachable (cap : Nat) (s t : PipeState) : Prop :=
  Relation.ReflTransGen (PipeStep cap) s t

/-- A scanner-state invariant: `Q` constrains the in-progress buffer and
`P` holds of every batch already emitted. -/
def ScanInv (P Q : List String → Prop) (st : ScanState) : Prop :=
  Q st.buffer ∧ ∀ b ∈ st.acc, P b

/-- The structural invariant of the pipeline: the channel is closed only
after the scanner sent everything, and a worker is gone only once the
channel was closed and drained. -/
def PipeInv (s : PipeState) : Prop :=
  (s.closed = true → s.toEmit = []) ∧ (s.workers = 0 → s.closed = true ∧ s.chan = [])

/-! ### Characterization of the scanner -/

theorem candKeys_append (c : Int) (l₁ l₂ : List S3Object) :
    candKeys c (l₁ ++ l₂) = candKeys c l₁ ++ candKeys c l₂ := by
  simp [candKeys, List.filter_append]

theorem candKeys_cons (c : Int) (o : S3Object) (l : List S3Object) :
    candKeys c (o :: l) = candKeys c [o] ++ candKeys c l := by
  simpa using candKeys_append c [o] l

theorem stepObj_flatten (c M : Int) (st : ScanState) (o : S3Object) :
    (stepObj c M st o).acc.flatten ++ (stepObj c M st o).buffer
      = st.acc.flatten ++ st.buffer ++ candKeys c [o] := by
  rw [stepObj]
  split
  · rename_i h
    split <;> simp [candKeys, List.filter_cons, h]
  · rename_i h
    simp only [Bool.not_eq_true] at h
    simp [candKeys, List.filter_cons, h]

theorem stepObj_total (c M : Int) (st : ScanState) (o : S3Object) :
    (stepObj c M st o).total = st.total + (candKeys c [o]).length := by
  rw [stepObj]
  split
  · rename_i h
    split <;> simp [candKeys, List.filter_cons, h]
  · rename_i h
    simp only [Bool.not_eq_true] at h
    simp [candKeys, List.filter_cons, h]

theorem scanPage_flatten (c M : Int) (objs : List S3Object) :
    ∀ st : ScanState,
      (scanPage c M st objs).acc.flatten ++ (scanPage c M st objs).buffer
        = st.acc.flatten ++ st.buffer ++ candKeys c objs := by
  induction objs with
  | nil => intro st; simp [scanPage, candKeys]
  | cons o rest ih =>
    intro st
    rw [scanPage, ih, stepObj_flatten, candKeys_cons c o rest]
    simp [List.append_assoc]

theorem scanPage_total (c M : Int) (objs : List S3Object) :
    ∀ st : ScanState,
      (scanPage c M st objs).total = st.total + (candKeys c objs).length := by
  induction objs with
  | nil => intro st; simp [scanPage, candKeys]
  | cons o rest ih =>
    intro st
    rw [scanPage, ih, stepObj_total, candKeys_cons c o rest]
    simp [Nat.add_assoc]

theorem scanOkPages_flatten (c M : Int) (pages : List (List S3Object)) :
    ∀ st : ScanState,
      (scanOkPages c M st pages).acc.flatten ++ (scanOkPages c M st pages).buffer
        = st.acc.flatten ++ st.buffer ++ candKeys c pages.flatten := by
  induction pages with
  | nil => intro st; simp [scanOkPages, candKeys]
  | cons p rest ih =>
    intro st
    rw [scanOkPages, ih, scanPage_flatten]
    simp [candKeys_append, List.append_assoc]

theorem scanOkPages_total (c M : Int) (pages : List (List S3Object)) :
    ∀ st : ScanState,
      (scanOkPages c M st pages).total = st.total + (candKeys c pages.flatten).length := by
  induction pages with
  | nil => intro st; simp [scanOkPages, candKeys]
  | cons p rest ih =>
    intro st
    rw [scanOkPages, ih, scanPage_total]
    simp [candKeys_append, Nat.add_assoc]

theorem scanPages_ok_eq (c M : Int) (pages : List (List S3Object)) :
    ∀ st : ScanState,
      scanPages c M st (pages.map PageResult.ok) = flushFinal (scanOkPages c M st pages) := by
  induction pages with
  | nil => intro st; rfl
  | cons p rest ih => intro st; rw [List.map_cons, scanPages, scanOkPages, ih]

theorem scanPages_err_eq (c M : Int) (pages : List (List S3Object)) :
    ∀ (st : ScanState) (rest : List PageResult),
      scanPages c M st (pages.map PageResult.ok ++ PageResult.err :: rest)
        = ⟨(scanOkPages c M st pages).acc, (scanOkPages c M st pages).total, true⟩ := by
  induction pages with
  | nil => intro st rest; rfl
  | cons p ps ih => intro st rest; rw [List.map_cons, List.cons_append, scanPages, scanOkPages, ih]

theorem pages_split (pages : List PageResult) :
    (∃ oks : List (List S3Object), pages = oks.map PageResult.ok)
    ∨ (∃ (oks : List (List S3Object)) (rest : List PageResult),
        pages = oks.map PageResult.ok ++ PageResult.err :: rest) := by
  induction pages with
  | nil => exact Or.inl ⟨[], rfl⟩
  | cons p rest ih =>
    cases p with
    | err => exact Or.inr ⟨[], rest, rfl⟩
    | ok c =>
      rcases ih with ⟨oks, h⟩ | ⟨oks, r, h⟩
      · exact Or.inl ⟨c :: oks, by simp [h]⟩
      · exact Or.inr ⟨c :: oks, r, by simp [h]⟩

theorem flushFinal_flatten (st : ScanState) :
    (flushFinal st).batches.flatten = st.acc.flatten ++ st.buffer := by
  by_cases h : st.buffer = [] <;> simp [flushFinal, h]

theorem flushFinal_total (st : ScanState) : (flushFinal st).total = st.total := by
  by_cases h : st.buffer = [] <;> simp [flushFinal, h]

theorem flushFinal_failed (st : ScanState) : (flushFinal st).failed = false := by
  by_cases h : st.buffer = [] <;> simp [flushFinal, h]

/-- Error-free listing: the batches concatenate to exactly the filtered
candidate keys in listing order, `totalObjects` counts them, and no error
is returned. -/
theorem scan_ok_spec (c M : Int) (pages : List (List S3Object)) :
    (listAndDeleteObjects c M (pages.map PageResult.ok)).batches.flatten
        = candidateKeys c pages
    ∧ (listAndDeleteObjects c M (pages.map PageResult.ok)).total
        = (candidateKeys c pages).length
    ∧ (listAndDeleteObjects c M (pages.map PageResult.ok)).failed = false := by
  have hb := scanOkPages_flatten c M pages ⟨[], [], 0⟩
  have ht := scanOkPages_total c M pages ⟨[], [], 0⟩
  simp only [listAndDeleteObjects, scanPages_ok_eq]
  refine ⟨?_, ?_, flushFinal_failed _⟩
  · rw [flushFinal_flatten, hb]; simp [candidateKeys]
  · rw [flushFinal_total, ht]; simp [candidateKeys]

/-! ### Shape of the emitted batches -/

theorem stepObj_inv (P Q : List String → Prop) (c M : Int)
    (Hflush : ∀ buf k, Q buf → M ≤ ((buf ++ [k]).length : Int) → P (buf ++ [k]))
    (Hgrow : ∀ buf k, Q buf → ¬ M ≤ ((buf ++ [k]).length : Int) → Q (buf ++ [k]))
    (Hnil : Q [])
    (st : ScanState) (o : S3Object) (h : ScanInv P Q st) :
    ScanInv P Q (stepObj c M st o) := by
  rw [stepObj]
  split
  · split
    · rename_i hM
      refine ⟨Hnil, ?_⟩
      intro b hb
      rcases List.mem_append.1 hb with hb | hb
      · exact h.2 b hb
      · rw [List.mem_singleton] at hb
        subst hb
        exact Hflush _ _ h.1 hM
    · rename_i hM
      exact ⟨Hgrow _ _ h.1 hM, h.2⟩
  · exact h

theorem scanPage_inv (P Q : List String → Prop) (c M : Int)
    (Hflush : ∀ buf k, Q buf → M ≤ ((buf ++ [k]).length : Int) → P (buf ++ [k]))
    (Hgrow : ∀ buf k, Q buf → ¬ M ≤ ((buf ++ [k]).length : Int) → Q (buf ++ [k]))
    (Hnil : Q []) (objs : List S3Object) :
    ∀ st : ScanState, ScanInv P Q st → ScanInv P Q (scanPage c M st objs) := by
  induction objs with
  | nil => intro st h; exact h
  | cons o rest ih =>
    intro st h
    exact ih _ (stepObj_inv P Q c M Hflush Hgrow Hnil st o h)

theorem scanOkPages_inv (P Q : List String → Prop) (c M : Int)
    (Hflush : ∀ buf k, Q buf → M ≤ ((buf ++ [k]).length : Int) → P (buf ++ [k]))
    (Hgrow : ∀ buf k, Q buf → ¬ M ≤ ((buf ++ [k]).length : Int) → Q (buf ++ [k]))
    (Hnil : Q []) (pages : List (List S3Object)) :
    ∀ st : ScanState, ScanInv P Q st → ScanInv P Q (scanOkPages c M st pages) := by
  induction pages with
  | nil => intro st h; exact h
  | cons p rest ih =>
    intro st h
    exact ih _ (scanPage_inv P Q c M Hflush Hgrow Hnil p st h)

/-- Every batch the scanner emits satisfies `P`, for any listing (with or
without a trailing fetch error), provided `P` is established by the flush
rule and by a final non-empty buffer. -/
theorem scan_batches_prop (P Q : List String → Prop) (c M : Int)
    (Hflush : ∀ buf k, Q buf → M ≤ ((buf ++ [k]).length : Int) → P (buf ++ [k]))
    (Hgrow : ∀ buf k, Q buf → ¬ M ≤ ((buf ++ [k]).length : Int) → Q (buf ++ [k]))
    (Hnil : Q [])
    (Hfinal : ∀ buf, Q buf → buf ≠ [] → P buf)
    (pages : List PageResult) :
    ∀ b ∈ (listAndDeleteObjects c M pages).batches, P b := by
  rcases pages_split pages with ⟨oks, rfl⟩ | ⟨oks, rest, rfl⟩
  · have h := scanOkPages_inv P Q c M Hflush Hgrow Hnil oks ⟨[], [], 0⟩
      ⟨Hnil, by intro b hb; simp at hb⟩
    rw [listAndDeleteObjects, scanPages_ok_eq, flushFinal]
    split
    · exact h.2
    · rename_i hne
      intro b hb
      rcases List.mem_append.1 hb with hb | hb
      · exact h.2 b hb
      · rw [List.mem_singleton] at hb
        subst hb
        exact Hfinal _ h.1 hne
  · have h := scanOkPages_inv P Q c M Hflush Hgrow Hnil oks ⟨[], [], 0⟩
      ⟨Hnil, by intro b hb; simp at hb⟩
    rw [listAndDeleteObjects, scanPages_err_eq]
    exact h.2

/-- No emitted batch is empty, for any `maxKeysPerDelete`. -/
theorem scan_batches_nonempty (c M : Int) (pages : List PageResult) :
    ∀ b ∈ (listAndDeleteObjects c M pages).batches, b ≠ [] := by
  refine scan_batches_prop (fun b => b ≠ []) (fun _ => True) c M ?_ ?_ trivial ?_ pages
  · intro buf k _ _
    simp
  · intro _ _ _ _
    trivial
  · intro buf _ hne
    exact hne

/-- With a positive `maxKeysPerDelete`, every emitted batch has between 1
and `M` keys. -/
theorem scan_batches_bounds (c M : Int) (hM : 1 ≤ M) (pages : List PageResult) :
    ∀ b ∈ (listAndDeleteObjects c M pages).batches,
      1 ≤ b.length ∧ (b.length : Int) ≤ M := by
  refine scan_batches_prop _ (fun buf => (buf.length : Int) < M) c M ?_ ?_ ?_ ?_ pages
  · intro buf k hQ hF
    refine ⟨by simp, ?_⟩
    simp only [List.length_append, List.length_singleton] at *
    omega
  · intro buf k hQ hF
    simp only [List.length_append, List.length_singleton] at *
    omega
  · simpa using hM
  · intro buf hQ hne
    exact ⟨List.length_pos.2 hne, le_of_lt hQ⟩

/-- With `maxKeysPerDelete ≤ 1` (so also 0 or negative), the flush fires
after every append: every emitted batch is a singleton. -/
theorem scan_batches_singleton (c M : Int) (hM : M ≤ 1) (pages : List PageResult) :
    ∀ b ∈ (listAndDeleteObjects c M pages).batches, b.length = 1 := by
  refine scan_batches_prop _ (fun buf => buf = []) c M ?_ ?_ rfl ?_ pages
  · intro buf k hQ _
    subst hQ
    simp
  · intro buf k hQ hF
    exfalso
    subst hQ
    simp only [List.nil_append, List.length_singleton, Nat.cast_one] at hF
    omega
  · intro buf hQ hne
    exact absurd hQ hne

/-! ### Worker-pool accounting -/

theorem totalDeleted_add_failedSizes (succ : List String → Bool)
    (batches : List (List String)) :
    totalDeleted succ batches + failedSizes succ batches
      = (batches.map List.length).sum := by
  induction batches with
  | nil => rfl
  | cons b rest ih =>
    by_cases h : succ b <;>
      simp [totalDeleted, failedSizes, List.filter_cons, h] at ih ⊢ <;>
      omega

theorem totalDeleted_le_sum (succ : List String → Bool)
    (batches : List (List String)) :
    totalDeleted succ batches ≤ (batches.map List.length).sum := by
  have h := totalDeleted_add_failedSizes succ batches
  omega

/-- On an error-free listing the emitted batch sizes add up exactly to the
candidate count. -/
theorem scan_ok_sum_sizes (c M : Int) (pages : List (List S3Object)) :
    ((listAndDeleteObjects c M (pages.map PageResult.ok)).batches.map List.length).sum
      = (listAndDeleteObjects c M (pages.map PageResult.ok)).total := by
  rw [← List.length_flatten, (scan_ok_spec c M pages).1, (scan_ok_spec c M pages).2.1]

/-- On any listing the emitted batch sizes add up to at most the candidate
count (on an aborted listing the dropped buffer was counted but not sent). -/
theorem scan_sum_sizes_le_total (c M : Int) (pages : List PageResult) :
    ((listAndDeleteObjects c M pages).batches.map List.length).sum
      ≤ (listAndDeleteObjects c M pages).total := by
  rcases pages_split pages with ⟨oks, rfl⟩ | ⟨oks, rest, rfl⟩
  · rw [scan_ok_sum_sizes]
  · rw [listAndDeleteObjects, scanPages_err_eq]
    have hb := congrArg List.length (scanOkPages_flatten c M oks ⟨[], [], 0⟩)
    have ht := scanOkPages_total c M oks ⟨[], [], 0⟩
    simp only [List.length_append] at hb
    simp only [ScanState.total] at ht
    rw [← List.length_flatten]
    simp only [ScanState.acc, ScanState.buffer, List.flatten_nil, List.nil_append,
      List.length_nil] at hb ⊢
    omega

/-! ### The objects the scanner consumed -/

theorem consumed_ok (oks : List (List S3Object)) :
    consumedObjects (oks.map PageResult.ok) = oks.flatten := by
  induction oks with
  | nil => rfl
  | cons c rest ih => simp [consumedObjects, ih]

theorem consumed_err (oks : List (List S3Object)) (rest : List PageResult) :
    consumedObjects (oks.map PageResult.ok ++ PageResult.err :: rest) = oks.flatten := by
  induction oks with
  | nil => rfl
  | cons c r ih => simp [consumedObjects, ih]

/-- `totalObjects` counts exactly the filtered objects among the pages the
scanner managed to fetch. -/
theorem scan_total_eq (c M : Int) (pages : List PageResult) :
    (listAndDeleteObjects c M pages).total
      = (candKeys c (consumedObjects pages)).length := by
  rcases pages_split pages with ⟨oks, rfl⟩ | ⟨oks, rest, rfl⟩
  · rw [(scan_ok_spec c M oks).2.1, consumed_ok]
    rfl
  · rw [listAndDeleteObjects, scanPages_err_eq, consumed_err]
    have ht := scanOkPages_total c M oks ⟨[], [], 0⟩
    simpa using ht

theorem consumed_take_sublist (pages : List PageResult) :
    ∀ k : Nat, (consumedObjects (pages.take k)).Sublist (consumedObjects pages) := by
  induction pages with
  | nil =>
    intro k
    simp [consumedObjects]
  | cons p rest ih =>
    intro k
    cases k with
    | zero => simp [consumedObjects]
    | succ k =>
      cases p with
      | err => simp [consumedObjects]
      | ok cpage =>
        simp only [List.take_succ_cons, consumedObjects]
        exact (ih k).append_left cpage

/-! ### The dispatch pipeline -/

theorem pipeInv_step (cap : Nat) (s t : PipeState) (hstep : PipeStep cap s t)
    (h : PipeInv s) : PipeInv t := by
  cases hstep with
  | send b rest hE hC =>
    refine ⟨fun hc => ?_, fun hw => ?_⟩
    · have h1 := h.1 hc
      rw [hE] at h1
      exact absurd h1 (List.cons_ne_nil b rest)
    · have h1 := h.1 (h.2 hw).1
      rw [hE] at h1
      exact absurd h1 (List.cons_ne_nil b rest)
  | close hE hc =>
    exact ⟨fun _ => hE, fun hw => ⟨rfl, (h.2 hw).2⟩⟩
  | recv b rest hC hw =>
    refine ⟨h.1, fun h0 => ?_⟩
    simp only [] at h0
    omega
  | exitWorker hc hchan hw =>
    exact ⟨h.1, fun _ => ⟨hc, hchan⟩⟩

theorem pipeInv_reachable (cap : Nat) (s t : PipeState) (h : PipeReachable cap s t)
    (hs : PipeInv s) : PipeInv t := by
  induction h with
  | refl => exact hs
  | tail hab hbc ih => exact pipeInv_step cap _ _ hbc ih

/-- From any live state satisfying the invariant some pipeline step is
enabled: the scanner, a worker, or the close can always move, so the
pipeline never deadlocks. -/
theorem pipe_progress (cap : Nat) (hcap : 1 ≤ cap) (s : PipeState)
    (hinv : PipeInv s) (hnd : ¬ PipeDone s) : ∃ t, PipeStep cap s t := by
  cases hc : s.chan with
  | cons b rest =>
    rcases Nat.eq_zero_or_pos s.workers with hw | hw
    · have h1 := (hinv.2 hw).2
      rw [hc] at h1
      exact absurd h1 (List.cons_ne_nil b rest)
    · exact ⟨_, PipeStep.recv s b rest hc hw⟩
  | nil =>
    cases hcl : s.closed with
    | false =>
      cases hE : s.toEmit with
      | nil => exact ⟨_, PipeStep.close s hE hcl⟩
      | cons b rest =>
        refine ⟨_, PipeStep.send s b rest hE ?_⟩
        rw [hc]
        simpa using hcap
    | true =>
      have hE := hinv.1 hcl
      rcases Nat.eq_zero_or_pos s.workers with hw | hw
      · exact absurd ⟨hE, hc, hcl, hw⟩ hnd
      · exact ⟨_, PipeStep.exitWorker s hcl hc hw⟩

/-- Every pipeline step strictly decreases `pipeMeasure`: no execution of
the pipeline can run forever. -/
theorem pipe_measure_decreases (cap : Nat) (s t : PipeState) (h : PipeStep cap s t) :
    pipeMeasure t < pipeMeasure s := by
  cases h with
  | send b rest hE hC =>
    simp [pipeMeasure, hE]
    omega
  | close hE hc =>
    simp [pipeMeasure, hc]
  | recv b rest hC hw =>
    simp only [pipeMeasure, hC, List.length_cons]
    omega
  | exitWorker hc hchan hw =>
    simp [pipeMeasure, hc, hchan]
    omega

/-! ### Date parsing and setup -/

theorem tryLayouts_isSome (tp : String → String → Option Int) (s : String)
    (L : List String) :
    (tryLayouts tp s L).isSome = true ↔ ∃ f ∈ L, (tp f s).isSome = true := by
  induction L with
  | nil => simp [tryLayouts]
  | cons f rest ih =>
    rw [tryLayouts]
    cases htp : tp f s with
    | none => simp [htp, ih]
    | some t => simp [htp]

theorem runPipeline_ok (c M : Int) (pages : List (List S3Object))
    (succ : List String → Bool) :
    runPipeline c M (pages.map PageResult.ok) succ
      = RunOutcome.summary
          (totalDeleted succ (listAndDeleteObjects c M (pages.map PageResult.ok)).batches)
          (listAndDeleteObjects c M (pages.map PageResult.ok)).total := by
  simp [runPipeline, (scan_ok_spec c M pages).2.2]

/-! ### The claims -/

/-- C1: For every error-free listing and cutoff, a key appears in some
emitted Deletion Batch exactly when some listed object carries that key
with a last-modified timestamp strictly before the cutoff — so an object
whose timestamp equals the cutoff is never selected — and `totalObjects`
counts exactly the filtered candidates. -/
theorem C1_filter_iff (cutoff maxKeys : Int) (pages : List (List S3Object)) (key : String) :
    ((∃ b ∈ (listAndDeleteObjects cutoff maxKeys (pages.map PageResult.ok)).batches, key ∈ b)
        ↔ ∃ o ∈ pages.flatten, o.key = key ∧ o.lastModified < cutoff)
    ∧ (listAndDeleteObjects cutoff maxKeys (pages.map PageResult.ok)).total
        = (candidateKeys cutoff pages).length := by
  refine ⟨?_, (scan_ok_spec cutoff maxKeys pages).2.1⟩
  have hmem : (∃ b ∈ (listAndDeleteObjects cutoff maxKeys (pages.map PageResult.ok)).batches,
      key ∈ b) ↔ key ∈ candidateKeys cutoff pages := by
    rw [← (scan_ok_spec cutoff maxKeys pages).1]
    exact List.mem_flatten.symm
  rw [hmem]
  simp only [candidateKeys, candKeys, List.mem_map, List.mem_filter, keep,
    decide_eq_true_eq]
  constructor
  · rintro ⟨o, ⟨ho, hlt⟩, hkey⟩
    exact ⟨o, ho, hkey, hlt⟩
  · rintro ⟨o, ho, hkey, hlt⟩
    exact ⟨o, ⟨ho, hlt⟩, hkey⟩

/-- C2: With a positive `maxKeysPerDelete` bound `M`, every emitted batch
holds between 1 and `M` keys, and the batches concatenate to exactly the
filtered candidate keys — no duplication, no omission. -/
theorem C2_batch_partition (cutoff maxKeys : Int) (pages : List (List S3Object))
    (hM : 1 ≤ maxKeys) :
    (∀ b ∈ (listAndDeleteObjects cutoff maxKeys (pages.map PageResult.ok)).batches,
        1 ≤ b.length ∧ (b.length : Int) ≤ maxKeys)
    ∧ (listAndDeleteObjects cutoff maxKeys (pages.map PageResult.ok)).batches.flatten
        = candidateKeys cutoff pages :=
  ⟨scan_batches_bounds cutoff maxKeys hM (pages.map PageResult.ok),
   (scan_ok_spec cutoff maxKeys pages).1⟩

/-- C2 witness: the two batch-shape properties at a concrete listing of
three candidates with `maxKeysPerDelete = 2`. -/
theorem C2_batch_partition_witness :
    (1 : Int) ≤ 2
    ∧ ((∀ b ∈ (listAndDeleteObjects 10 2
          ([[⟨"a", 1⟩, ⟨"b", 2⟩, ⟨"c", 3⟩]].map PageResult.ok)).batches,
        1 ≤ b.length ∧ (b.length : Int) ≤ 2)
      ∧ (listAndDeleteObjects 10 2
          ([[⟨"a", 1⟩, ⟨"b", 2⟩, ⟨"c", 3⟩]].map PageResult.ok)).batches.flatten
        = candidateKeys 10 [[⟨"a", 1⟩, ⟨"b", 2⟩, ⟨"c", 3⟩]]) :=
  ⟨by decide, C2_batch_partition 10 2 [[⟨"a", 1⟩, ⟨"b", 2⟩, ⟨"c", 3⟩]] (by decide)⟩

/-- C3: On a complete run, `totalDeleted` equals `totalObjects` when every
bulk-delete call succeeds; when at least one fails `totalDeleted` is
strictly smaller, and the shortfall is exactly the summed size of the
failed batches. -/
theorem C3_deleted_accounting (cutoff maxKeys : Int) (pages : List (List S3Object))
    (succ : List String → Bool) :
    ((∀ b ∈ (listAndDeleteObjects cutoff maxKeys (pages.map PageResult.ok)).batches,
        succ b = true) →
      totalDeleted succ (listAndDeleteObjects cutoff maxKeys (pages.map PageResult.ok)).batches
        = (listAndDeleteObjects cutoff maxKeys (pages.map PageResult.ok)).total)
    ∧ ((∃ b ∈ (listAndDeleteObjects cutoff maxKeys (pages.map PageResult.ok)).batches,
        succ b = false) →
      totalDeleted succ (listAndDeleteObjects cutoff maxKeys (pages.map PageResult.ok)).batches
        < (listAndDeleteObjects cutoff maxKeys (pages.map PageResult.ok)).total)
    ∧ (listAndDeleteObjects cutoff maxKeys (pages.map PageResult.ok)).total
        - totalDeleted succ (listAndDeleteObjects cutoff maxKeys (pages.map PageResult.ok)).batches
        = failedSizes succ (listAndDeleteObjects cutoff maxKeys (pages.map PageResult.ok)).batches := by
  have hsum := totalDeleted_add_failedSizes succ
    (listAndDeleteObjects cutoff maxKeys (pages.map PageResult.ok)).batches
  have htot := scan_ok_sum_sizes cutoff maxKeys pages
  refine ⟨?_, ?_, by omega⟩
  · intro hall
    have hnil : (listAndDeleteObjects cutoff maxKeys (pages.map PageResult.ok)).batches.filter
        (fun b => ! succ b) = [] := by
      rw [List.filter_eq_nil_iff]
      intro b hb
      simp [hall b hb]
    have hzero : failedSizes succ
        (listAndDeleteObjects cutoff maxKeys (pages.map PageResult.ok)).batches = 0 := by
      rw [failedSizes, hnil]
      rfl
    omega
  · rintro ⟨b, hb, hfb⟩
    have hne := scan_batches_nonempty cutoff maxKeys (pages.map PageResult.ok) b hb
    have hmem : b ∈ (listAndDeleteObjects cutoff maxKeys (pages.map PageResult.ok)).batches.filter
        (fun x => ! succ x) := by
      rw [List.mem_filter]
      exact ⟨hb, by simp [hfb]⟩
    have hlen : b.length ≤ failedSizes succ
        (listAndDeleteObjects cutoff maxKeys (pages.map PageResult.ok)).batches :=
      List.single_le_sum (fun x _ => Nat.zero_le x) _ (List.mem_map_of_mem List.length hmem)
    have hpos : 1 ≤ b.length := List.length_pos.2 hne
    omega

/-- C3 witness: a two-candidate listing with `maxKeysPerDelete = 1`; under
an all-success oracle the counts agree, and under an oracle failing batch
`[a]` the deleted count falls short by exactly that batch's size. -/
theorem C3_deleted_accounting_witness :
    ((∀ b ∈ (listAndDeleteObjects 10 1
          ([[⟨"a", 1⟩, ⟨"b", 2⟩]].map PageResult.ok)).batches, (fun _ => true) b = true)
      ∧ totalDeleted (fun _ => true)
          (listAndDeleteObjects 10 1 ([[⟨"a", 1⟩, ⟨"b", 2⟩]].map PageResult.ok)).batches
        = (listAndDeleteObjects 10 1 ([[⟨"a", 1⟩, ⟨"b", 2⟩]].map PageResult.ok)).total)
    ∧ ((∃ b ∈ (listAndDeleteObjects 10 1
          ([[⟨"a", 1⟩, ⟨"b", 2⟩]].map PageResult.ok)).batches,
            (fun x => decide (x ≠ ["a"])) b = false)
      ∧ totalDeleted (fun x => decide (x ≠ ["a"]))
          (listAndDeleteObjects 10 1 ([[⟨"a", 1⟩, ⟨"b", 2⟩]].map PageResult.ok)).batches
        < (listAndDeleteObjects 10 1 ([[⟨"a", 1⟩, ⟨"b", 2⟩]].map PageResult.ok)).total)
    ∧ (listAndDeleteObjects 10 1 ([[⟨"a", 1⟩, ⟨"b", 2⟩]].map PageResult.ok)).total
        - totalDeleted (fun x => decide (x ≠ ["a"]))
            (listAndDeleteObjects 10 1 ([[⟨"a", 1⟩, ⟨"b", 2⟩]].map PageResult.ok)).batches
        = failedSizes (fun x => decide (x ≠ ["a"]))
            (listAndDeleteObjects 10 1 ([[⟨"a", 1⟩, ⟨"b", 2⟩]].map PageResult.ok)).batches :=
  ⟨⟨by decide, (C3_deleted_accounting 10 1 [[⟨"a", 1⟩, ⟨"b", 2⟩]] (fun _ => true)).1 (by decide)⟩,
   ⟨by decide, (C3_deleted_accounting 10 1 [[⟨"a", 1⟩, ⟨"b", 2⟩]]
      (fun x => decide (x ≠ ["a"]))).2.1 (by decide)⟩,
   (C3_deleted_accounting 10 1 [[⟨"a", 1⟩, ⟨"b", 2⟩]] (fun x => decide (x ≠ ["a"]))).2.2⟩

/-- C4 counterexample: three filtered candidates on page 1, then a fetch
error.  The scanner dispatched only the full batch `[a, b]`, counted 3
candidates, and the run takes the `log.Fatalf` path, which prints no
deletion counts — refuting the claim that the run "reports the fatal
listing error alongside whatever partial deletion counts accrued". -/
theorem C4_fatal_no_counts_counterexample :
    (listAndDeleteObjects 10 2
        [PageResult.ok [⟨"a", 1⟩, ⟨"b", 2⟩, ⟨"c", 3⟩], PageResult.err]).batches = [["a", "b"]]
    ∧ (listAndDeleteObjects 10 2
        [PageResult.ok [⟨"a", 1⟩, ⟨"b", 2⟩, ⟨"c", 3⟩], PageResult.err]).total = 3
    ∧ reportedCounts (runPipeline 10 2
        [PageResult.ok [⟨"a", 1⟩, ⟨"b", 2⟩, ⟨"c", 3⟩], PageResult.err] (fun _ => true))
      = none := by
  decide

/-- C4 (amended): when a page fetch fails mid-scan, the scanner aborts at
once — the emitted batches are exactly those flushed from the pages before
the failure, the buffered keys are never sent, the error is surfaced — and
the coordinator exits through `log.Fatalf`, reporting the fatal listing
error without any deletion counts. -/
theorem C4_abort_on_listing_error (cutoff maxKeys : Int) (oks : List (List S3Object))
    (rest : List PageResult) :
    listAndDeleteObjects cutoff maxKeys (oks.map PageResult.ok ++ PageResult.err :: rest)
      = ⟨(scanOkPages cutoff maxKeys ⟨[], [], 0⟩ oks).acc,
         (scanOkPages cutoff maxKeys ⟨[], [], 0⟩ oks).total, true⟩
    ∧ ∀ succ : List String → Bool,
        reportedCounts (runPipeline cutoff maxKeys
          (oks.map PageResult.ok ++ PageResult.err :: rest) succ) = none := by
  have h := scanPages_err_eq cutoff maxKeys oks ⟨[], [], 0⟩ rest
  refine ⟨h, fun succ => ?_⟩
  simp [runPipeline, listAndDeleteObjects, h, reportedCounts]

/-- C5: at every point of a run — any number of pages fetched so far, any
subset of the dispatched batches succeeded — the deleted count cannot
exceed the final candidate count: candidates are counted at filter time,
before their batch is dispatched. -/
theorem C5_deleted_le_candidates (cutoff maxKeys : Int) (pages : List PageResult)
    (k : Nat) (succ : List String → Bool) :
    totalDeleted succ (listAndDeleteObjects cutoff maxKeys (pages.take k)).batches
      ≤ (listAndDeleteObjects cutoff maxKeys pages).total := by
  have h1 := totalDeleted_le_sum succ
    (listAndDeleteObjects cutoff maxKeys (pages.take k)).batches
  have h2 := scan_sum_sizes_le_total cutoff maxKeys (pages.take k)
  have h3 : (candKeys cutoff (consumedObjects (pages.take k))).length
      ≤ (candKeys cutoff (consumedObjects pages)).length := by
    simpa [candKeys] using
      (((consumed_take_sublist pages k).filter (keep cutoff)).map S3Object.key).length_le
  rw [scan_total_eq] at h2
  rw [scan_total_eq]
  omega

/-- C6: for every candidate-set size, batch size and worker count ≥ 1 the
pipeline winds down without deadlock: from every reachable non-final state
some step is enabled, every step strictly decreases the measure (so no
execution runs forever), and an error-free run always ends in the summary
line — also with zero batches and zero deletions. -/
theorem C6_pipeline_terminates (cutoff maxKeys : Int) (pages : List (List S3Object))
    (w : Nat) (hw : 1 ≤ w) :
    (∀ s, PipeReachable w (initPipe cutoff maxKeys (pages.map PageResult.ok) w) s →
        ¬ PipeDone s → ∃ t, PipeStep w s t)
    ∧ (∀ s t, PipeStep w s t → pipeMeasure t < pipeMeasure s)
    ∧ (∀ succ : List String → Bool, ∃ d tot,
        runPipeline cutoff maxKeys (pages.map PageResult.ok) succ
          = RunOutcome.summary d tot) := by
  have hinit : PipeInv (initPipe cutoff maxKeys (pages.map PageResult.ok) w) := by
    constructor
    · intro h
      simp [initPipe] at h
    · intro h
      simp only [initPipe] at h
      exact absurd h (by omega)
  refine ⟨?_, fun s t h => pipe_measure_decreases w s t h,
    fun succ => ⟨_, _, runPipeline_ok cutoff maxKeys pages succ⟩⟩
  intro s hreach hnd
  exact pipe_progress w hw s (pipeInv_reachable w _ s hreach hinit) hnd

/-- C6 witness: the termination properties at the empty listing with a
single worker: zero batches are dispatched and the summary still comes. -/
theorem C6_pipeline_terminates_witness :
    1 ≤ 1
    ∧ ((∀ s, PipeReachable 1 (initPipe 0 1 (([] : List (List S3Object)).map PageResult.ok) 1) s →
          ¬ PipeDone s → ∃ t, PipeStep 1 s t)
      ∧ (∀ s t, PipeStep 1 s t → pipeMeasure t < pipeMeasure s)
      ∧ (∀ succ : List String → Bool, ∃ d tot,
          runPipeline 0 1 (([] : List (List S3Object)).map PageResult.ok) succ
            = RunOutcome.summary d tot)) :=
  ⟨by decide, C6_pipeline_terminates 0 1 [] 1 (by decide)⟩

/-- C7 counterexample: configuration with an unparseable date AND a failing
client construction (endpoint set, credentials missing).  `main` parses
the date before touching the client and dies with the date-parse error;
under the claimed order (client construction before date parsing) the run
would die with the client-construction error, so the claimed stage order
differs from the code's. -/
theorem C7_setup_order_counterexample :
    (setupTrace (fun _ _ => none) false ⟨"b", "x", "http://m", "", ""⟩).1
        = [SetupStage.validateConfig, SetupStage.parseTargetDate]
    ∧ (setupTrace (fun _ _ => none) false ⟨"b", "x", "http://m", "", ""⟩).2
        = SetupResult.dateParseError
    ∧ (setupTraceClaimed (fun _ _ => none) false ⟨"b", "x", "http://m", "", ""⟩).2
        = SetupResult.clientError
    ∧ setupTrace (fun _ _ => none) false ⟨"b", "x", "http://m", "", ""⟩
        ≠ setupTraceClaimed (fun _ _ => none) false ⟨"b", "x", "http://m", "", ""⟩ := by
  decide

/-- C7 (amended): the coordinator validates the required configuration
first, then parses the target date, and only then constructs the store
client; each of the three possible setup errors stops the run at its
stage, before any listing or deletion is attempted. -/
theorem C7_setup_order (tp : String → String → Option Int) (loadOk : Bool) (cfg : Config) :
    ((setupTrace tp loadOk cfg).1 = [SetupStage.validateConfig]
        ∧ (setupTrace tp loadOk cfg).2 = SetupResult.configError
      ∨ (setupTrace tp loadOk cfg).1 = [SetupStage.validateConfig, SetupStage.parseTargetDate]
        ∧ (setupTrace tp loadOk cfg).2 = SetupResult.dateParseError
      ∨ (setupTrace tp loadOk cfg).1
          = [SetupStage.validateConfig, SetupStage.parseTargetDate, SetupStage.createClient])
    ∧ (((setupTrace tp loadOk cfg).2 = SetupResult.configError
        ∨ (setupTrace tp loadOk cfg).2 = SetupResult.dateParseError
        ∨ (setupTrace tp loadOk cfg).2 = SetupResult.clientError) →
      ∀ (maxKeys : Int) (pages pages' : List PageResult) (succ succ' : List String → Bool),
        runProgram tp loadOk cfg maxKeys pages succ
          = runProgram tp loadOk cfg maxKeys pages' succ') := by
  constructor
  · by_cases hbd : cfg.bucket = "" ∨ cfg.dateStr = ""
    · left
      simp [setupTrace, hbd]
    · cases hp : parseDate tp cfg.dateStr with
      | none =>
        right; left
        simp [setupTrace, hbd, hp]
      | some t =>
        right; right
        by_cases hc : clientCreationOk loadOk cfg <;> simp [setupTrace, hbd, hp, hc]
  · intro herr maxKeys pages pages' succ succ'
    rcases herr with h | h | h <;> simp [runProgram, h]

/-- C7 amended-claim witness: a config error (empty bucket) makes the run
outcome independent of the listing and of the delete oracle. -/
theorem C7_setup_order_witness :
    ((setupTrace (fun _ _ => none) true ⟨"", "2023-01-01", "", "", ""⟩).2
        = SetupResult.configError
      ∨ (setupTrace (fun _ _ => none) true ⟨"", "2023-01-01", "", "", ""⟩).2
        = SetupResult.dateParseError
      ∨ (setupTrace (fun _ _ => none) true ⟨"", "2023-01-01", "", "", ""⟩).2
        = SetupResult.clientError)
    ∧ runProgram (fun _ _ => none) true ⟨"", "2023-01-01", "", "", ""⟩ 5
        [PageResult.err] (fun _ => true)
      = runProgram (fun _ _ => none) true ⟨"", "2023-01-01", "", "", ""⟩ 5
        [] (fun _ => false) :=
  ⟨by decide,
   (C7_setup_order (fun _ _ => none) true ⟨"", "2023-01-01", "", "", ""⟩).2 (by decide)
     5 [PageResult.err] [] (fun _ => true) (fun _ => false)⟩

/-- C8: date parsing succeeds exactly when RFC3339 (tried first) or one of
the eight fallback layouts matches, returning the first match; when no
format matches, a run with valid required flags terminates with the fatal
date-parse outcome. -/
theorem C8_parseDate_formats (tp : String → String → Option Int) (s : String) :
    ((parseDate tp s).isSome = true
        ↔ ∃ f ∈ rfc3339Layout :: fallbackLayouts, (tp f s).isSome = true)
    ∧ (∀ t, tp rfc3339Layout s = some t → parseDate tp s = some t)
    ∧ (∀ (loadOk : Bool) (cfg : Config) (maxKeys : Int) (pages : List PageResult)
        (succ : List String → Bool),
        cfg.bucket ≠ "" → cfg.dateStr ≠ "" → cfg.dateStr = s → parseDate tp s = none →
        runProgram tp loadOk cfg maxKeys pages succ = ProgOutcome.dateParseError) := by
  refine ⟨?_, ?_, ?_⟩
  · rw [parseDate]
    cases htp : tp rfc3339Layout s with
    | some t => simp [htp]
    | none => simp [htp, tryLayouts_isSome]
  · intro t ht
    rw [parseDate, ht]
  · intro loadOk cfg maxKeys pages succ hb hd hds hnone
    rw [← hds] at hnone
    simp [runProgram, setupTrace, hb, hd, hnone]

/-- C8 witness: an oracle accepting only the plain-date layout, applied to
a matching string (membership direction) and to an unmatchable date string
(fatal date-parse outcome). -/
theorem C8_parseDate_formats_witness :
    ((parseDate (fun f x => if f = "2006-01-02" ∧ x = "2023-01-01" then some (5 : Int) else none)
          "2023-01-01").isSome = true
        ↔ ∃ f ∈ rfc3339Layout :: fallbackLayouts,
            ((fun f x => if f = "2006-01-02" ∧ x = "2023-01-01" then some (5 : Int) else none)
              f "2023-01-01").isSome = true)
    ∧ runProgram (fun f x => if f = "2006-01-02" ∧ x = "2023-01-01" then some (5 : Int) else none)
        true ⟨"b", "zzz", "", "", ""⟩ 7 [] (fun _ => true)
      = ProgOutcome.dateParseError :=
  ⟨by exact (C8_parseDate_formats
      (fun f x => if f = "2006-01-02" ∧ x = "2023-01-01" then some (5 : Int) else none)
      "2023-01-01").1,
   (C8_parseDate_formats
      (fun f x => if f = "2006-01-02" ∧ x = "2023-01-01" then some (5 : Int) else none)
      "zzz").2.2 true ⟨"b", "zzz", "", "", ""⟩ 7 [] (fun _ => true)
      (by decide) (by decide) rfl (by decide)⟩

/-- C9: the scanner preserves listing order — the concatenation of the
emitted batches, in send order, equals the subsequence of listed keys
whose last-modified is strictly before the cutoff, in page order. -/
theorem C9_order_preserved (cutoff maxKeys : Int) (pages : List (List S3Object)) :
    (listAndDeleteObjects cutoff maxKeys (pages.map PageResult.ok)).batches.flatten
      = candidateKeys cutoff pages :=
  (scan_ok_spec cutoff maxKeys pages).1

/-- C10: with `maxKeysPerDelete ≤ 1` — including 1, 0 and negative values —
the scanner does not fail: the flush fires after every append, every batch
carries exactly one key, and every filtered candidate is still emitted
exactly once, in order. -/
theorem C10_small_maxKeys (cutoff maxKeys : Int) (pages : List (List S3Object))
    (hM : maxKeys ≤ 1) :
    (∀ b ∈ (listAndDeleteObjects cutoff maxKeys (pages.map PageResult.ok)).batches,
        b.length = 1)
    ∧ (listAndDeleteObjects cutoff maxKeys (pages.map PageResult.ok)).batches.flatten
        = candidateKeys cutoff pages
    ∧ (listAndDeleteObjects cutoff maxKeys (pages.map PageResult.ok)).failed = false :=
  ⟨scan_batches_singleton cutoff maxKeys hM (pages.map PageResult.ok),
   (scan_ok_spec cutoff maxKeys pages).1,
   (scan_ok_spec cutoff maxKeys pages).2.2⟩

/-- C10 witness: `maxKeysPerDelete = 0` on a two-candidate page: singleton
batches, all candidates emitted, no failure. -/
theorem C10_small_maxKeys_witness :
    (0 : Int) ≤ 1
    ∧ ((∀ b ∈ (listAndDeleteObjects 10 0
          ([[⟨"a", 1⟩, ⟨"b", 2⟩]].map PageResult.ok)).batches, b.length = 1)
      ∧ (listAndDeleteObjects 10 0
          ([[⟨"a", 1⟩, ⟨"b", 2⟩]].map PageResult.ok)).batches.flatten
        = candidateKeys 10 [[⟨"a", 1⟩, ⟨"b", 2⟩]]
      ∧ (listAndDeleteObjects 10 0
          ([[⟨"a", 1⟩, ⟨"b", 2⟩]].map PageResult.ok)).failed = false) :=
  ⟨by decide, C10_small_maxKeys 10 0 [[⟨"a", 1⟩, ⟨"b", 2⟩]] (by decide)⟩

end S3FileRemover
